import Mathlib

/-!
Shallow embedding of the federation engine of the Lysand server:
the inbox request pipeline (origin block-list, bridge-token bypass,
signature gate, activity dispatch), the local/remote reference
resolvers for users and notes, and the visibility / thread-assembly
functions. Definitions are translated from
`src/unnamed/part_003` (the `/users/:uuid/inbox` handler) and
`src/packages/database-interface/user.ts` (the `User` and `Note`
database-interface classes).
-/

namespace Lysand

/-- Note visibility values; `priv` embeds the source's `"private"`. -/
inductive Visibility
  | pub
  | unlisted
  | priv
  | direct
  deriving DecidableEq, Repr

/-- A row of the `Users` table, restricted to the columns the federation
engine reads: `id`, `uri` (`none` for local users), `isLocked`, plus the
mutable profile fields touched by `User.saveFromRemote`. -/
structure UserRow where
  id : String
  uri : Option String
  isLocked : Bool
  displayName : String
  publicKey : String
  deriving DecidableEq, Repr

/-- A row of the `Notes` table together with its `NoteToMentions`
join-table associations (`mentions` holds the mentioned users' ids,
grouped per note as the relational queries return them). -/
structure NoteRow where
  id : String
  authorId : String
  uri : Option String
  visibility : Visibility
  replyId : Option String
  quotingId : Option String
  content : String
  sensitive : Bool
  spoilerText : String
  mentions : List String
  deriving DecidableEq, Repr

/-- A row of the `Relationships` table (directed edge `ownerId → subjectId`). -/
structure RelationshipRow where
  id : String
  ownerId : String
  subjectId : String
  following : Bool
  requested : Bool
  showingReblogs : Bool
  notifying : Bool
  languages : List String
  deriving DecidableEq, Repr

/-- A row of the `Notifications` table as inserted by the inbox handler. -/
structure NotificationRow where
  accountId : String
  notifiedId : String
  ntype : String
  deriving DecidableEq, Repr

/-- The relational store consumed by the engine.  `nextId` models the
database's id generator for inserted rows. -/
structure Store where
  users : List UserRow
  notes : List NoteRow
  relationships : List RelationshipRow
  notifications : List NotificationRow
  nextId : Nat
  deriving DecidableEq, Repr

/-- Does the character list `s` begin with `p`? -/
def listLeads : List Char → List Char → Bool
  | [], _ => true
  | _ :: _, [] => false
  | p :: ps, c :: cs => p == c && listLeads ps cs

/-- Does `sub` occur anywhere in `s` (the empty list occurs everywhere)? -/
def listOccurs (sub : List Char) : List Char → Bool
  | [] => sub.isEmpty
  | c :: cs => listLeads sub (c :: cs) || listOccurs sub cs

/-- JavaScript `String.prototype.includes`: `sub` occurs in `s`
(the empty string occurs in every string). -/
def jsIncludes (s sub : String) : Bool :=
  listOccurs sub.data s.data

/-- JavaScript `String.prototype.startsWith`. -/
def jsStartsWith (s p : String) : Bool :=
  listLeads p.data s.data

/-- If `s` begins with `p`, the remainder after `p`. -/
def dropLead : List Char → List Char → Option (List Char)
  | [], s => some s
  | _ :: _, [] => none
  | p :: ps, c :: cs => if p == c then dropLead ps cs else none

/-- Split on a separator, explicit-fuel version (any fuel above the
list length is enough for a non-empty separator). -/
def splitCharsFuel (sep : List Char) : Nat → List Char → List (List Char)
  | 0, s => [s]
  | Nat.succ fuel, s =>
    match s with
    | [] => [[]]
    | c :: cs =>
      match dropLead sep (c :: cs) with
      | some rest => [] :: splitCharsFuel sep fuel rest
      | none =>
        match splitCharsFuel sep fuel cs with
        | [] => [[c]]
        | g :: gs => (c :: g) :: gs

/-- JavaScript `String.prototype.split` for a non-empty separator. -/
def jsSplit (s sep : String) : List String :=
  (splitCharsFuel sep.data (s.data.length + 1) s.data).map String.mk

/-- `config.federation.bridge` (from `config-manager`). -/
structure BridgeConfig where
  enabled : Bool
  token : String
  allowed_ips : List String
  deriving DecidableEq, Repr

/-- `config.federation`: the origin block-list and the bridge settings. -/
structure FederationConfig where
  blocked : List String
  bridge : BridgeConfig
  deriving DecidableEq, Repr

/-- The headers and source address of an inbound inbox request
(`schemas.header` plus `context.env?.ip` in `part_003`). -/
structure InboxRequest where
  signature : String
  date : String
  authorization : Option String
  origin : String
  requestIp : Option String
  deriving DecidableEq, Repr

/-- `authorization?.split("Bearer ")[1]`: the token presented after
`Bearer `, when the header is present and contains that marker. -/
def bridgeToken (authorization : Option String) : Option String :=
  match authorization with
  | none => none
  | some a => (jsSplit a "Bearer ").get? 1

/-- Outcome of the inbox handler's pre-dispatch pipeline.  `processed` is
produced by the dispatch continuation when the request passes every gate
and reaches `handler.parseBody`. -/
inductive InboxOutcome
  | blockedOriginAccepted
  | userNotFound
  | invalidBridgeToken
  | ipUnavailable
  | keyIdUnresolved
  | invalidSignature
  | processed
  deriving DecidableEq, Repr

/-- The origin check at the top of the inbox handler:
`config.federation.blocked.find((blocked) => blocked.includes(origin) ||
origin.includes(blocked))`. -/
def originBlocked (blocked : List String) (origin : String) : Bool :=
  blocked.any (fun b => jsIncludes b origin || jsIncludes origin b)

/-- The bridge section of the inbox handler (`part_003`, lines 227-257),
returning either an early error outcome or the resulting
`checkSignature` flag.  Mirrors the source exactly: when the caller's
address is available, `checkSignature` is cleared whenever
`allowed_ips` is non-empty (line 241), before the per-entry matching
loop runs; JS truthiness makes an empty extracted token or an empty
address behave as absent. -/
def bridgeCheck (cfg : FederationConfig) (ipMatches : String → String → Bool)
    (req : InboxRequest) : Except InboxOutcome Bool :=
  if cfg.bridge.enabled then
    match bridgeToken req.authorization with
    | none => Except.ok true
    | some token =>
      if token.isEmpty then Except.ok true
      else if token != cfg.bridge.token then Except.error InboxOutcome.invalidBridgeToken
      else
        match req.requestIp with
        | none => Except.error InboxOutcome.ipUnavailable
        | some addr =>
          if addr.isEmpty then Except.error InboxOutcome.ipUnavailable
          else
            let afterLen := decide (cfg.bridge.allowed_ips.length > 0)
            let afterLoop := afterLen || cfg.bridge.allowed_ips.any (fun ip => ipMatches ip addr)
            Except.ok (!afterLoop)
  else Except.ok true

/-- The inbox handler pipeline up to activity dispatch (`part_003`,
lines 185-324): origin block-list, addressed-user lookup, bridge
handling, then the signature gate.  `keyIdResolves` and `sigValid`
stand for the outcomes of the external signer resolution and
cryptographic validation; `dispatch` is the `handler.parseBody`
continuation over the store. -/
def inboxProcess (cfg : FederationConfig) (ipMatches : String → String → Bool)
    (req : InboxRequest) (userFound : Bool) (keyIdResolves sigValid : Bool)
    (dispatch : Store → InboxOutcome × Store) (s : Store) : InboxOutcome × Store :=
  if originBlocked cfg.blocked req.origin then (InboxOutcome.blockedOriginAccepted, s)
  else if !userFound then (InboxOutcome.userNotFound, s)
  else
    match bridgeCheck cfg ipMatches req with
    | Except.error o => (o, s)
    | Except.ok checkSignature =>
      if checkSignature then
        if !keyIdResolves then (InboxOutcome.keyIdUnresolved, s)
        else if !sigValid then (InboxOutcome.invalidSignature, s)
        else dispatch s
      else dispatch s

/-!
Visibility and thread-assembly engine
(`src/packages/database-interface/user.ts`, `Note` class).
-/

/-- `Note.isViewableByUser(user)` (`user.ts`, lines 1293-1313), with
the `private` branch read with its intended meaning.  The author check
compares `this.getAuthor().id` with `user?.id` (false for an anonymous
viewer), and the default (direct) branch searches the note's mentions
for the viewer — both faithful to the source.  The `private` branch
with a viewer, however, queries `db.query.Relationships.findFirst`
whose where-clause writes `eq(relationship.subjectId, Notes.authorId)`:
`Notes.authorId` is a column reference to a table absent from that
Relationships-only query, so the generated statement errors at runtime
and no boolean is produced (see `isViewableByUserRun` for the runtime
behavior).  This definition records the evidently intended check —
`subjectId` equals this note's author, with `following = true` — the
semantics the thread filters would consume had the call been awaited. -/
def isViewableByUser (note : NoteRow) (viewer : Option UserRow)
    (rels : List RelationshipRow) : Bool :=
  if viewer.map UserRow.id == some note.authorId then true
  else if note.visibility == Visibility.pub then true
  else if note.visibility == Visibility.unlisted then true
  else if note.visibility == Visibility.priv then
    match viewer with
    | some u =>
      (rels.find? (fun r =>
        r.ownerId == u.id && r.subjectId == note.authorId && r.following)).isSome
    | none => false
  else
    match viewer with
    | some u => (note.mentions.find? (fun m => m == u.id)).isSome
    | none => false

/-- The failure the `private` branch's query produces at runtime: its
where-clause references `Notes.authorId`, a column of a table that is
not part of the `Relationships.findFirst` query. -/
inductive ViewError
  | missingNotesTable
  deriving DecidableEq, Repr

/-- The runtime behavior of `Note.isViewableByUser(user)` (`user.ts`,
lines 1293-1313).  The author, public, unlisted and direct branches
return as written.  The `private` branch with a non-null viewer issues
the `Relationships.findFirst` query whose where-clause references the
dangling `Notes.authorId` column: the database rejects the statement,
the returned promise rejects, and no boolean is produced — the result
can depend neither on this note's author nor on any relationship row,
so this embedding takes no relationship argument.  (In
`getAncestors`/`getDescendants` the call is not awaited, so the
rejection never surfaces there and the truthy-Promise behavior of
`promiseTruthy` is unaffected.) -/
def isViewableByUserRun (note : NoteRow) (viewer : Option UserRow) :
    Except ViewError Bool :=
  if viewer.map UserRow.id == some note.authorId then Except.ok true
  else if note.visibility == Visibility.pub then Except.ok true
  else if note.visibility == Visibility.unlisted then Except.ok true
  else if note.visibility == Visibility.priv then
    match viewer with
    | some _ => Except.error ViewError.missingNotesTable
    | none => Except.ok false
  else
    match viewer with
    | some u => Except.ok (note.mentions.find? (fun m => m == u.id)).isSome
    | none => Except.ok false

/-- `Note.fromId` over the store: first `Notes` row with the given id. -/
def noteFromId (notes : List NoteRow) (id : String) : Option NoteRow :=
  notes.find? (fun n => n.id == id)

/-- The `while` loop of `getAncestors` (`user.ts`, lines 1463-1477):
follow `replyId` parents until absent.  The source loop is unbounded
(it would not terminate on a cyclic `replyId` graph), so the embedding
carries explicit fuel; any fuel at least the chain length is enough. -/
def ancestorChain (notes : List NoteRow) : Nat → NoteRow → List NoteRow
  | 0, _ => []
  | Nat.succ fuel, cur =>
    match cur.replyId with
    | none => []
    | some rid =>
      match noteFromId notes rid with
      | none => []
      | some parent => parent :: ancestorChain notes fuel parent

/-- The viewability filter of `getAncestors`/`getDescendants` applies
`Array.prototype.filter` to the value of
`ancestor.isViewableByUser(fetcher)` without awaiting it: `filter`
receives the returned Promise object, and a Promise is always truthy,
so every element is kept.  This function is the truthiness of that
Promise. -/
def promiseTruthy (_ : Bool) : Bool := true

/-- `Note.getAncestors(fetcher)` (`user.ts`, lines 1460-1486): collect
the reply-parent chain, filter (see `promiseTruthy`), and reverse so
the oldest post comes first. -/
def getAncestors (notes : List NoteRow) (rels : List RelationshipRow)
    (fuel : Nat) (note : NoteRow) (viewer : Option UserRow) : List NoteRow :=
  ((ancestorChain notes fuel note).filter
    (fun a => promiseTruthy (isViewableByUser a viewer rels))).reverse

/-- `Note.getReplyChildren` (`user.ts`, lines 868-876): the `Notes`
rows whose `replyId` is this note's id, in store order. -/
def replyChildren (notes : List NoteRow) (id : String) : List NoteRow :=
  notes.filter (fun n => n.replyId == some id)

/-- `Note.getDescendants(fetcher, depth = 0)` (`user.ts`, lines
1492-1513): for each reply child, push the child, and if `depth < 20`
recurse with `depth + 1`; each call then filters its accumulated list
(see `promiseTruthy`).  The recursion is bounded solely by the depth
guard, so a structural fuel of `21 - depth` always suffices; the
fuel-exhausted clause is unreachable from `getDescendants`. -/
def getDescendantsFuel (notes : List NoteRow) (rels : List RelationshipRow)
    (viewer : Option UserRow) : Nat → NoteRow → Nat → List NoteRow
  | 0, _, _ => []
  | Nat.succ fuel, note, depth =>
    ((replyChildren notes note.id).flatMap (fun child =>
      child ::
        (if depth < 20 then getDescendantsFuel notes rels viewer fuel child (depth + 1)
         else []))).filter
      (fun d => promiseTruthy (isViewableByUser d viewer rels))

/-- Entry point of `getDescendants`: the source's default `depth = 0`. -/
def getDescendants (notes : List NoteRow) (rels : List RelationshipRow)
    (viewer : Option UserRow) (note : NoteRow) : List NoteRow :=
  getDescendantsFuel notes rels viewer 21 note 0

/-!
Reference resolution (`User.resolve`, `User.saveFromRemote`,
`Note.resolve`, `Note.saveFromRemote` in `user.ts`).
-/

/-- A fetched remote user payload after `EntityValidator.User`
validation, restricted to the fields the embedding stores. -/
structure UserPayload where
  uri : String
  username : String
  displayName : String
  publicKey : String
  deriving DecidableEq, Repr

/-- A federation `Note` entity (`EntityValidator.$Note`), restricted to
the fields the resolver reads.  `typ` is the wire `type` field. -/
structure NotePayload where
  typ : String
  uri : String
  author : String
  content : String
  visibility : Visibility
  isSensitive : Bool
  subject : String
  mentions : List String
  repliesTo : Option String
  quotes : Option String
  deriving DecidableEq, Repr

/-- External collaborators of the resolvers, kept abstract:
`baseUrl` is `config.http.base_url`; `canParse` is `URL.canParse`;
`matchId` — Modelled from the spec: `idValidator` (the regex for the
fixed local-ID syntax) is imported from `@/api` and absent from `src/`,
so `uri.match(idValidator)` is kept abstract as the first match of that
syntax inside the URI; `fetchUser`/`fetchNote` model the HTTP fetch,
JSON parse and schema validation of remote entities, with `none`
standing for a network error, a `null` body or a validation rejection
(all of which the source throws on). -/
structure Env where
  baseUrl : String
  canParse : String → Bool
  matchId : String → Option String
  fetchUser : String → Option UserPayload
  fetchNote : String → Option NotePayload

/-- The errors thrown by the resolvers and mapped by the callers.
`outOfFuel` is an artifact of the embedding: the source's
reply/quote recursion is unbounded and terminates only because
already-materialized rows short-circuit resolution on finite graphs. -/
inductive FedError
  | malformedLocalUri
  | invalidUri
  | fetchFailed
  | noUriOrNote
  | invalidObjectType
  | invalidObjectAuthor
  | nullMention
  | outOfFuel
  deriving DecidableEq, Repr

/-- `User.saveFromRemote(uri)` (`user.ts`, lines 224-357): validate the
URI, fetch and validate the payload, then upsert by `data.uri` —
update the existing row's mutable fields in place, or insert a fresh
row.  Instance registration, emoji join rows and the search-index hook
touch neither `users` nor `notes` rows and are outside the claims. -/
def userSaveFromRemote (env : Env) (s : Store) (uri : String) :
    Except FedError (UserRow × Store) :=
  if !(env.canParse uri) then Except.error FedError.invalidUri
  else
    match env.fetchUser uri with
    | none => Except.error FedError.fetchFailed
    | some data =>
      match s.users.find? (fun u => u.uri == some data.uri) with
      | some found =>
        let updated := { found with
          displayName := data.displayName, publicKey := data.publicKey }
        Except.ok (updated,
          { s with users := s.users.map (fun u => if u.id == found.id then updated else u) })
      | none =>
        let newU : UserRow :=
          { id := toString s.nextId, uri := some data.uri,
            isLocked := false, displayName := data.displayName, publicKey := data.publicKey }
        Except.ok (newU, { s with users := s.users ++ [newU], nextId := s.nextId + 1 })

/-- `User.resolve(uri)` (`user.ts`, lines 359-379): exact `Users.uri`
match; else if the URI starts with the base URL, match the local-ID
syntax (throwing when unparsable) and look the id up locally; else
delegate to `User.saveFromRemote`. -/
def userResolve (env : Env) (s : Store) (uri : String) :
    Except FedError (Option UserRow × Store) :=
  match s.users.find? (fun u => u.uri == some uri) with
  | some found => Except.ok (some found, s)
  | none =>
    if jsStartsWith uri env.baseUrl then
      match env.matchId uri with
      | none => Except.error FedError.malformedLocalUri
      | some id => Except.ok (s.users.find? (fun u => u.id == id), s)
    else
      match userSaveFromRemote env s uri with
      | Except.error e => Except.error e
      | Except.ok (u, s1) => Except.ok (some u, s1)

/-- The mention resolution of `Note.saveFromRemote`:
`Promise.all(note.mentions.map((m) => User.resolve(m)).filter((m) => m !== null))`.
The `filter` tests Promises (always truthy), so nothing is dropped: the
result keeps a `none` for each mention that resolved to `null`, and any
rejection propagates.  The embedding sequences the store effects
left-to-right. -/
def resolveMentions (env : Env) : Store → List String →
    Except FedError (List (Option UserRow) × Store)
  | s, [] => Except.ok ([], s)
  | s, m :: rest =>
    match userResolve env s m with
    | Except.error e => Except.error e
    | Except.ok (u, s1) =>
      match resolveMentions env s1 rest with
      | Except.error e => Except.error e
      | Except.ok (us, s2) => Except.ok (u :: us, s2)

/-- Building the `NoteToMentions` join rows reads `mention.id` on every
resolved mention; a `null` mention (see `resolveMentions`) makes the
source throw a `TypeError` there. -/
def forceMentions : List (Option UserRow) → Except FedError (List UserRow)
  | [] => Except.ok []
  | none :: _ => Except.error FedError.nullMention
  | some u :: rest =>
    match forceMentions rest with
    | Except.error e => Except.error e
    | Except.ok us => Except.ok (u :: us)

/-- `Note.fromData` (`user.ts`, lines 902-994): insert a fresh `Notes`
row (`uri: uri || null`, so an empty payload uri is stored as `null`),
create the mention join rows, and insert a `"mention"` notification for
every mentioned local user.  The HTML renderers (`contentToHtml`,
`sanitizedHtmlStrip`) are external and kept as the identity on the
stored strings; emoji and attachment rows are outside the claims. -/
def noteFromData (s : Store) (author : UserRow) (p : NotePayload)
    (mentionUsers : List UserRow) (replyId quotingId : Option String) :
    NoteRow × Store :=
  let newN : NoteRow :=
    { id := toString s.nextId, authorId := author.id,
      uri := if p.uri.isEmpty then none else some p.uri,
      visibility := p.visibility, replyId := replyId, quotingId := quotingId,
      content := p.content, sensitive := p.isSensitive, spoilerText := p.subject,
      mentions := mentionUsers.map UserRow.id }
  let notifs := (mentionUsers.filter (fun m => m.uri == none)).map
    (fun m => ({ accountId := author.id, notifiedId := m.id, ntype := "mention" } : NotificationRow))
  (newN,
    { s with
      notes := s.notes ++ [newN], nextId := s.nextId + 1,
      notifications := s.notifications ++ notifs })

/-- `Note.updateFromData` (`user.ts`, lines 996-1091): update the
existing row's mutable fields in place (same row id), and replace the
mention join rows by delete-then-reinsert.  No notification is created
on update.  A reply or quote argument that is `undefined` (no target,
or a target that resolved to `null`) is omitted from the drizzle
`update` set and leaves that column untouched. -/
def noteUpdateFromData (s : Store) (old : NoteRow) (p : NotePayload)
    (mentionUsers : List UserRow) (replyId quotingId : Option String) :
    NoteRow × Store :=
  let updated :=
    { old with
      content := p.content, visibility := p.visibility, sensitive := p.isSensitive,
      spoilerText := p.subject,
      replyId := match replyId with | none => old.replyId | some r => some r,
      quotingId := match quotingId with | none => old.quotingId | some q => some q,
      mentions := mentionUsers.map UserRow.id }
  (updated, { s with notes := s.notes.map (fun n => if n.id == old.id then updated else n) })

/-- The number of stored `Notes` rows carrying the given remote uri. -/
def countNotesWithUri (notes : List NoteRow) (uri : String) : Nat :=
  (notes.filter (fun n => n.uri == some uri)).length

mutual

/-- `Note.resolve(uri?, providedNote?)` (`user.ts`, lines 1093-1116):
with a uri, exact `Notes.uri` match first, then the local-URI path
(throwing when the local-ID syntax does not match), else
`Note.saveFromRemote`; with no uri, straight to `Note.saveFromRemote`. -/
def noteResolveFuel (env : Env) : Nat → Store → Option String → Option NotePayload →
    Except FedError (Option NoteRow × Store)
  | 0, _, _, _ => Except.error FedError.outOfFuel
  | Nat.succ fuel, s, uriIn, provided =>
    match uriIn with
    | some uri =>
      match s.notes.find? (fun n => n.uri == some uri) with
      | some found => Except.ok (some found, s)
      | none =>
        if jsStartsWith uri env.baseUrl then
          match env.matchId uri with
          | none => Except.error FedError.malformedLocalUri
          | some id => Except.ok (noteFromId s.notes id, s)
        else
          match noteSaveFromRemoteFuel env fuel s (some uri) provided with
          | Except.error e => Except.error e
          | Except.ok (n, s1) => Except.ok (some n, s1)
    | none =>
      match noteSaveFromRemoteFuel env fuel s none provided with
      | Except.error e => Except.error e
      | Except.ok (n, s1) => Except.ok (some n, s1)

/-- `Note.saveFromRemote(uri?, providedNote?)` (`user.ts`, lines
1118-1263): look up the existing row by `uri ?? providedNote?.uri ?? ""`,
fetch when a uri is given (the fetched payload replaces the provided
one), validate type and author, resolve the author (hard failure) and
the mentions, resolve the reply and quote targets recursively, then
update the found row in place or insert a fresh one.  Attachment and
emoji dependencies fail soft and touch no `notes` row. -/
def noteSaveFromRemoteFuel (env : Env) : Nat → Store → Option String → Option NotePayload →
    Except FedError (NoteRow × Store)
  | 0, _, _, _ => Except.error FedError.outOfFuel
  | Nat.succ fuel, s, uriIn, provided =>
    if uriIn.isNone && provided.isNone then Except.error FedError.noUriOrNote
    else
      let lookupUri := match uriIn with
        | some u => u
        | none => match provided with | some p => p.uri | none => ""
      let foundStatus := s.notes.find? (fun n => n.uri == some lookupUri)
      let fetched : Except FedError NotePayload :=
        match uriIn with
        | some uri =>
          if !(env.canParse uri) then Except.error FedError.invalidUri
          else
            match env.fetchNote uri with
            | none => Except.error FedError.fetchFailed
            | some p => Except.ok p
        | none =>
          match provided with
          | some p => Except.ok p
          | none => Except.error FedError.fetchFailed
      match fetched with
      | Except.error e => Except.error e
      | Except.ok p =>
        if p.typ != "Note" then Except.error FedError.invalidObjectType
        else if p.author.isEmpty then Except.error FedError.invalidObjectAuthor
        else
          match userResolve env s p.author with
          | Except.error e => Except.error e
          | Except.ok (none, _) => Except.error FedError.invalidObjectAuthor
          | Except.ok (some author, s1) =>
            match resolveMentions env s1 p.mentions with
            | Except.error e => Except.error e
            | Except.ok (ms, s2) =>
              match forceMentions ms with
              | Except.error e => Except.error e
              | Except.ok mrows =>
                match (match p.repliesTo with
                       | none => Except.ok ((none : Option String), s2)
                       | some r =>
                         match noteResolveFuel env fuel s2 (some r) none with
                         | Except.error e => Except.error e
                         | Except.ok (found, s3) =>
                           Except.ok (found.map NoteRow.id, s3)) with
                | Except.error e => Except.error e
                | Except.ok (replyId, s3) =>
                  match (match p.quotes with
                         | none => Except.ok ((none : Option String), s3)
                         | some q =>
                           match noteResolveFuel env fuel s3 (some q) none with
                           | Except.error e => Except.error e
                           | Except.ok (found, s4) =>
                             Except.ok (found.map NoteRow.id, s4)) with
                  | Except.error e => Except.error e
                  | Except.ok (quoteId, s4) =>
                    match foundStatus with
                    | some old =>
                      Except.ok (noteUpdateFromData s4 old p mrows replyId quoteId)
                    | none =>
                      Except.ok (noteFromData s4 author p mrows replyId quoteId)

end

/-!
Activity dispatcher branches (`part_003`, `handler.parseBody`).
-/

/-- Modelled from the spec: `getRelationshipToOtherUser` is imported
from `~/database/entities/User`, which is absent from `src/`.  The
spec's Relationship invariant — unique per `(owner, subject)`, with
independent boolean flags — and the handler's use of
`foundRelationship.id` to upsert give get-or-create semantics: return
the `(owner, subject)` row, creating it with all flags false when it
does not exist yet. -/
def getRelationshipToOtherUser (s : Store) (owner subject : UserRow) :
    RelationshipRow × Store :=
  match s.relationships.find? (fun r => r.ownerId == owner.id && r.subjectId == subject.id) with
  | some r => (r, s)
  | none =>
    let r : RelationshipRow :=
      { id := toString s.nextId, ownerId := owner.id, subjectId := subject.id,
        following := false, requested := false, showingReblogs := false,
        notifying := false, languages := [] }
    (r, { s with relationships := s.relationships ++ [r], nextId := s.nextId + 1 })

/-- Outcome of the follow branch.  `followOk` carries whether
`sendFollowAccept` (the Outbound Federator's accept) was triggered. -/
inductive FollowOutcome
  | authorNotFound
  | alreadyFollowing
  | followOk (sentAccept : Bool)
  | err (e : FedError)
  deriving DecidableEq, Repr

/-- The `follow` branch of the inbox handler (`part_003`, lines
350-388): resolve the follower, get the `(follower, target)`
relationship; if already following, a success no-op; else update the
relationship row (`following = !locked`, `requested = locked`,
`showingReblogs`/`notifying` true, `languages` cleared), insert one
notification, and send the accept when the target is unlocked. -/
def handleFollow (env : Env) (s : Store) (target : UserRow) (authorUri : String) :
    FollowOutcome × Store :=
  match userResolve env s authorUri with
  | Except.error e => (FollowOutcome.err e, s)
  | Except.ok (none, s1) => (FollowOutcome.authorNotFound, s1)
  | Except.ok (some account, s1) =>
    let rs := getRelationshipToOtherUser s1 account target
    let rel := rs.1
    let s2 := rs.2
    if rel.following then (FollowOutcome.alreadyFollowing, s2)
    else
      let s3 :=
        { s2 with
          relationships := s2.relationships.map (fun (r : RelationshipRow) =>
            if r.id == rel.id then
              { r with
                following := !target.isLocked, requested := target.isLocked,
                showingReblogs := true, notifying := true, languages := [] }
            else r) }
      let s4 :=
        { s3 with
          notifications := s3.notifications ++
            [{ accountId := account.id,
               notifiedId := target.id,
               ntype := if target.isLocked then "follow_request" else "follow" }] }
      (FollowOutcome.followOk (!target.isLocked), s4)

/-- The `following` flag of the stored `(ownerId, subjectId)`
relationship, when that row exists. -/
def relFollowing (s : Store) (ownerId subjectId : String) : Option Bool :=
  (s.relationships.find? (fun r => r.ownerId == ownerId && r.subjectId == subjectId)).map
    RelationshipRow.following

/-- The all-false relationship row `getRelationshipToOtherUser` creates
for `(acc, target)` on a store whose id generator is at `S.nextId`. -/
def freshRel (S : Store) (acc target : UserRow) : RelationshipRow :=
  { id := toString S.nextId, ownerId := acc.id, subjectId := target.id,
    following := false, requested := false, showingReblogs := false,
    notifying := false, languages := [] }

/-- The per-row effect of the follow branch's relationship update
(`db.update(Relationships).set({...}).where(eq(Relationships.id, relId))`). -/
def relUpdate (target : UserRow) (relId : String) (r : RelationshipRow) : RelationshipRow :=
  if r.id == relId then
    { r with
      following := !target.isLocked, requested := target.isLocked,
      showingReblogs := true, notifying := true, languages := [] }
  else r

/-- The store produced by the follow branch when the `(acc, target)`
relationship did not exist yet: the fresh relationship is created and
updated, and one notification row is appended. -/
def followStore (S : Store) (target acc : UserRow) : Store :=
  { S with
    relationships := (S.relationships ++ [freshRel S acc target]).map
      (relUpdate target (toString S.nextId)),
    notifications := S.notifications ++
      [{ accountId := acc.id, notifiedId := target.id,
         ntype := if target.isLocked then "follow_request" else "follow" }],
    nextId := S.nextId + 1 }

/-- Outcome of the undo branch. -/
inductive UndoOutcome
  | noteDeleted
  | accountDeleted
  | cannotDeleteOthers
  | notImplemented
  | err (e : FedError)
  deriving DecidableEq, Repr

/-- The `undo` branch of the inbox handler (`part_003`, lines 443-481).
The note lookup is `Note.fromSql(eq(Notes.uri, toDelete),
eq(Notes.authorId, user.id))`: the author condition lands in
`fromSql`'s second parameter, which is `orderBy`, so the where-clause
is the uri match alone and the author condition merely orders the (at
most one, by uri uniqueness) result.  A found note is deleted by row
id.  The follow case is a placeholder in the source.  Otherwise the
target is resolved as a user: the addressed actor's own row is
deleted, any other resolved user is refused, and an unresolvable
target reports an unimplemented deletion. -/
def handleUndo (env : Env) (s : Store) (user : UserRow) (toDelete : String) :
    UndoOutcome × Store :=
  match s.notes.find? (fun n => n.uri == some toDelete) with
  | some note =>
    (UndoOutcome.noteDeleted,
      { s with notes := s.notes.filter (fun n => !(n.id == note.id)) })
  | none =>
    match userResolve env s toDelete with
    | Except.error e => (UndoOutcome.err e, s)
    | Except.ok (none, s1) => (UndoOutcome.notImplemented, s1)
    | Except.ok (some other, s1) =>
      if other.id == user.id then
        (UndoOutcome.accountDeleted,
          { s1 with users := s1.users.filter (fun u => !(u.id == user.id)) })
      else (UndoOutcome.cannotDeleteOthers, s1)

/-!
Concrete fixtures used by the theorems below.
-/

/-- An environment whose external collaborators are inert: no URI
parses as a local id, and every fetch fails. -/
def trivEnv : Env :=
  { baseUrl := "https://local.test", canParse := fun _ => true,
    matchId := fun _ => none, fetchUser := fun _ => none, fetchNote := fun _ => none }

/-- The empty store. -/
def emptyStore : Store :=
  { users := [], notes := [], relationships := [], notifications := [], nextId := 0 }

/-- Federation config with the bridge enabled, shared token
`bridge-secret` and a one-entry IP allow-list. -/
def bridgeCfg : FederationConfig :=
  { blocked := [],
    bridge := { enabled := true, token := "bridge-secret", allowed_ips := ["10.0.0.1"] } }

/-- A request presenting the correct bridge token from source address
`192.168.7.7`, which matches no allow-list entry of `bridgeCfg`. -/
def bridgeReq : InboxRequest :=
  { signature := "sig", date := "today", authorization := some "Bearer bridge-secret",
    origin := "https://peer.example", requestIp := some "192.168.7.7" }

/-- A private note by author `a1`, not visible to an anonymous viewer. -/
def privAncestor : NoteRow :=
  { id := "n1", authorId := "a1", uri := none, visibility := Visibility.priv,
    replyId := none, quotingId := none, content := "secret", sensitive := false,
    spoilerText := "", mentions := [] }

/-- A viewer distinct from `privAncestor`'s author `a1`. -/
def followerViewer : UserRow :=
  { id := "u3", uri := none, isLocked := false, displayName := "Follower",
    publicKey := "pk3" }

/-- `followerViewer` follows `privAncestor`'s author `a1`. -/
def followerRel : RelationshipRow :=
  { id := "r1", ownerId := "u3", subjectId := "a1", following := true,
    requested := false, showingReblogs := false, notifying := false,
    languages := [] }

/-- A public reply to `privAncestor`. -/
def replyNote : NoteRow :=
  { id := "n2", authorId := "a1", uri := none, visibility := Visibility.pub,
    replyId := some "n1", quotingId := none, content := "reply", sensitive := false,
    spoilerText := "", mentions := [] }

/-- The local actor addressed by an inbox delivery. -/
def localActor : UserRow :=
  { id := "u1", uri := none, isLocked := false, displayName := "Local", publicKey := "pk1" }

/-- A distinct remote actor. -/
def otherActor : UserRow :=
  { id := "u2", uri := some "https://remote.example/users/u2", isLocked := false,
    displayName := "Other", publicKey := "pk2" }

/-- A stored remote note authored by `otherActor`, not by `localActor`. -/
def othersNote : NoteRow :=
  { id := "n9", authorId := "u2", uri := some "https://remote.example/notes/9",
    visibility := Visibility.pub, replyId := none, quotingId := none,
    content := "hi", sensitive := false, spoilerText := "", mentions := [] }

/-- Store holding both actors and `othersNote`. -/
def undoStore : Store :=
  { users := [localActor, otherActor], notes := [othersNote],
    relationships := [], notifications := [], nextId := 10 }

/-- A remote note payload authored by `otherActor`, with no mentions
and no reply or quote targets. -/
def remotePayload : NotePayload :=
  { typ := "Note", uri := "https://remote.example/notes/77",
    author := "https://remote.example/users/u2",
    content := "hello", visibility := Visibility.pub, isSensitive := false,
    subject := "", mentions := [], repliesTo := none, quotes := none }

/-- The row the first resolution of `remotePayload` inserts into
`undoStore` (fresh id `"10"` from the store's id generator). -/
def insertedNote : NoteRow :=
  { id := "10", authorId := "u2", uri := some "https://remote.example/notes/77",
    visibility := Visibility.pub, replyId := none, quotingId := none,
    content := "hello", sensitive := false, spoilerText := "", mentions := [] }

/-- `undoStore` after the first resolution of `remotePayload`. -/
def storeAfterInsert : Store :=
  { users := [localActor, otherActor], notes := [othersNote, insertedNote],
    relationships := [], notifications := [], nextId := 11 }

/-- Note `i` of a linear reply chain: note `0` is the root and note
`i + 1` replies to note `i`. -/
def chainNote (i : Nat) : NoteRow :=
  { id := toString i, authorId := "a", uri := none, visibility := Visibility.pub,
    replyId := if i == 0 then none else some (toString (i - 1)),
    quotingId := none, content := "", sensitive := false, spoilerText := "",
    mentions := [] }

/-- A linear reply chain of depth 25 below the root `chainNote 0`. -/
def chainNotes : List NoteRow := (List.range 26).map chainNote

/-!
Claim theorems.
-/

/-- C1: with the bridge enabled, the correct shared token presented,
and a non-empty IP allow-list that the caller's source address
(`192.168.7.7` vs allow-list `10.0.0.1`) does NOT match, the inbox
handler still skips signature verification and processes the request —
here even though the signer would not resolve and the signature would
not validate.  The claim says such a request is rejected with signature
verification still applying; the code clears `checkSignature` whenever
the allow-list is non-empty, before the per-entry matching loop. -/
theorem inbox_bridge_nonmatching_ip_bypasses_signature :
    inboxProcess bridgeCfg (fun pat addr => pat == addr) bridgeReq true false false
      (fun s => (InboxOutcome.processed, s)) emptyStore
      = (InboxOutcome.processed, emptyStore) := by decide

/-- C3: `getAncestors` returns an ancestor that `isViewableByUser`
rejects: the private note `privAncestor` is not viewable by the
anonymous viewer, yet it is the sole element of the ancestor list of
its public reply — the source filters with an un-awaited async
predicate, so the Promise is always truthy and nothing is excluded. -/
theorem getAncestors_returns_nonviewable_ancestor :
    getAncestors [privAncestor, replyNote] [] 2 replyNote none = [privAncestor] ∧
    isViewableByUser privAncestor none [] = false := by decide

/-- C6: an Undo from `localActor` whose target is `othersNote` — a note
authored by the distinct actor `otherActor` — deletes that note and
reports success, because the author condition is passed in the
`orderBy` slot of `Note.fromSql` and never restricts the lookup.  The
claim says such an Undo is rejected with an AuthorizationError and
deletes nothing. -/
theorem undo_deletes_foreign_note :
    handleUndo trivEnv undoStore localActor "https://remote.example/notes/9"
      = (UndoOutcome.noteDeleted, { undoStore with notes := [] }) := by decide

/-- C8 counterexample: on the linear reply chain of depth 25,
`getDescendants` of the root returns `chainNote 21`, a note 21 levels
below the queried note, so the returned list is not truncated at depth
20 as claimed. -/
theorem descendants_depth25_contains_level21 :
    chainNote 21 ∈ getDescendants chainNotes [] none (chainNote 0) := by decide

/-- C8 amended: on the linear reply chain of depth 25, `getDescendants`
of the root returns exactly the notes 1 to 21 levels below it — the
traversal pushes each child before testing `depth < 20`, so the hard
ceiling lies 21 levels below the queried note, one deeper than the
claimed 20. -/
theorem descendants_depth25_truncates_at_21 :
    getDescendants chainNotes [] none (chainNote 0)
      = (List.range 21).map (fun i => chainNote (i + 1)) := by decide

lemma listLeads_self (l : List Char) : listLeads l l = true := by
  induction l with
  | nil => rfl
  | cons c cs ih => simp [listLeads, ih]

lemma listOccurs_self (l : List Char) : listOccurs l l = true := by
  cases l with
  | nil => rfl
  | cons c cs => simp [listOccurs, listLeads_self]

lemma jsIncludes_self (s : String) : jsIncludes s s = true :=
  listOccurs_self s.data

/-- C2: on a private note viewed by a follower of its author — where
the claim says `isViewableByUser` returns true — the source's private
branch issues the `Relationships.findFirst` query whose where-clause
references the dangling `Notes.authorId` column and errors at runtime
instead of returning a boolean, while the claim's intended check (the
`subjectId` = note-author reading recorded by `isViewableByUser`) is
true there.  The claimed iff is the evident intent; the code's private
branch cannot return it. -/
theorem private_visibility_query_errors :
    isViewableByUserRun privAncestor (some followerViewer)
      = Except.error ViewError.missingNotesTable ∧
    isViewableByUser privAncestor (some followerViewer) [followerRel] = true :=
  ⟨rfl, by decide⟩

/-- The intended-semantics characterization behind the spec's
visibility sentence: `isViewableByUser(note, viewer)` is true exactly
when the viewer is the author, or the visibility is public or
unlisted, or the visibility is private and the (non-anonymous) viewer
has a `following = true` relationship to the author, or the visibility
is direct and the (non-anonymous) viewer is among the note's mentions. -/
theorem isViewableByUser_iff (note : NoteRow) (viewer : Option UserRow)
    (rels : List RelationshipRow) :
    isViewableByUser note viewer rels = true ↔
      ((∃ u, viewer = some u ∧ u.id = note.authorId) ∨
       note.visibility = Visibility.pub ∨
       note.visibility = Visibility.unlisted ∨
       (note.visibility = Visibility.priv ∧
         ∃ u, viewer = some u ∧ ∃ r ∈ rels,
           r.ownerId = u.id ∧ r.subjectId = note.authorId ∧ r.following = true) ∨
       (note.visibility = Visibility.direct ∧
         ∃ u, viewer = some u ∧ u.id ∈ note.mentions)) := by
  cases viewer with
  | none =>
    cases h : note.visibility <;>
      simp [isViewableByUser, h]
  | some u =>
    by_cases ha : u.id = note.authorId
    · cases h : note.visibility <;>
        simp [isViewableByUser, h, ha]
    · cases h : note.visibility <;>
        simp [isViewableByUser, h, ha, List.find?_isSome, List.mem_filter,
          Bool.and_eq_true, beq_iff_eq, and_assoc]

/-- C7: when the request's `Origin` header equals an entry of the
configured block-list, the inbox handler answers with the 201
acceptance and stops: the outcome and the unchanged store are
independent of the bridge settings, the signature oracles and the
dispatch continuation, so no signature verification, resolution or
store mutation happens and the response is indistinguishable from
acceptance. -/
theorem blocked_origin_silent_accept (cfg : FederationConfig)
    (ipMatches : String → String → Bool) (req : InboxRequest)
    (userFound keyIdResolves sigValid : Bool)
    (dispatch : Store → InboxOutcome × Store) (s : Store)
    (h : req.origin ∈ cfg.blocked) :
    inboxProcess cfg ipMatches req userFound keyIdResolves sigValid dispatch s
      = (InboxOutcome.blockedOriginAccepted, s) := by
  have hb : originBlocked cfg.blocked req.origin = true := by
    unfold originBlocked
    rw [List.any_eq_true]
    exact ⟨req.origin, h, by simp [jsIncludes_self]⟩
  unfold inboxProcess
  simp [hb]

/-- Witness for C7 at a concrete blocked origin. -/
theorem blocked_origin_silent_accept_witness :
    "https://blocked.example" ∈ ["https://blocked.example"] ∧
    inboxProcess
      { blocked := ["https://blocked.example"],
        bridge := { enabled := true, token := "t", allowed_ips := ["10.0.0.1"] } }
      (fun _ _ => false)
      { signature := "", date := "", authorization := some "Bearer t",
        origin := "https://blocked.example", requestIp := some "10.0.0.1" }
      true true true (fun s => (InboxOutcome.processed, s)) emptyStore
      = (InboxOutcome.blockedOriginAccepted, emptyStore) :=
  ⟨by decide, blocked_origin_silent_accept _ _ _ _ _ _ _ _ (by decide)⟩

/-- C10: with the bridge enabled, a request that is not from a blocked
origin and addresses an existing user, presenting a (non-empty) bearer
token different from the configured bridge token, is answered with the
401 invalid-token error: the outcome and the unchanged store are
independent of the signature oracles and of the dispatch continuation,
so neither signature verification nor activity processing nor any
store mutation happens. -/
theorem bridge_invalid_token_rejected (cfg : FederationConfig)
    (ipMatches : String → String → Bool) (req : InboxRequest)
    (keyIdResolves sigValid : Bool) (dispatch : Store → InboxOutcome × Store)
    (s : Store) (t : String)
    (hblocked : originBlocked cfg.blocked req.origin = false)
    (henabled : cfg.bridge.enabled = true)
    (htok : bridgeToken req.authorization = some t)
    (hne : t.isEmpty = false)
    (hdiff : t ≠ cfg.bridge.token) :
    inboxProcess cfg ipMatches req true keyIdResolves sigValid dispatch s
      = (InboxOutcome.invalidBridgeToken, s) := by
  unfold inboxProcess bridgeCheck
  simp [hblocked, henabled, htok, hne, hdiff]

/-- Witness for C10: wrong token `nope` against configured token
`bridge-secret`, with valid signature oracles. -/
theorem bridge_invalid_token_rejected_witness :
    originBlocked bridgeCfg.blocked "https://peer.example" = false ∧
    bridgeToken (some "Bearer nope") = some "nope" ∧
    inboxProcess bridgeCfg (fun pat addr => pat == addr)
      { signature := "sig", date := "today", authorization := some "Bearer nope",
        origin := "https://peer.example", requestIp := some "10.0.0.1" }
      true true true (fun s => (InboxOutcome.processed, s)) emptyStore
      = (InboxOutcome.invalidBridgeToken, emptyStore) :=
  ⟨by decide, by decide,
    bridge_invalid_token_rejected _ _ _ _ _ _ _ "nope" (by decide) (by decide)
      (by decide) (by decide) (by decide)⟩

/-- C9: resolving a URI that starts with the server's own base URL and
is not already stored never touches the network: for both
`User.resolve` and `Note.resolve` the result is completely determined
by the local-ID match and a local lookup — a malformed-URI error when
the local-ID syntax does not match, and a direct local lookup (which
leaves the store untouched) when it does.  The right-hand sides never
mention the fetch collaborators. -/
theorem local_uri_resolution_no_network (env : Env) (s : Store) (uri : String)
    (fuel : Nat)
    (hlocal : jsStartsWith uri env.baseUrl = true)
    (huser : s.users.find? (fun u => u.uri == some uri) = none)
    (hnote : s.notes.find? (fun n => n.uri == some uri) = none) :
    userResolve env s uri
      = (match env.matchId uri with
         | none => Except.error FedError.malformedLocalUri
         | some id => Except.ok (s.users.find? (fun u => u.id == id), s)) ∧
    noteResolveFuel env (fuel + 1) s (some uri) none
      = (match env.matchId uri with
         | none => Except.error FedError.malformedLocalUri
         | some id => Except.ok (noteFromId s.notes id, s)) := by
  constructor
  · unfold userResolve
    simp [huser, hlocal]
  · unfold noteResolveFuel
    simp [hnote, hlocal]

/-- Witness for C9 at a concrete local-looking URI over the empty
store: the inert environment's id matcher fails, so both resolvers
report the malformed-URI error. -/
theorem local_uri_resolution_no_network_witness :
    jsStartsWith "https://local.test/users/zzz" trivEnv.baseUrl = true ∧
    userResolve trivEnv emptyStore "https://local.test/users/zzz"
      = Except.error FedError.malformedLocalUri ∧
    noteResolveFuel trivEnv 1 emptyStore (some "https://local.test/users/zzz") none
      = Except.error FedError.malformedLocalUri := by
  refine ⟨by decide, ?_, ?_⟩
  · exact ((local_uri_resolution_no_network trivEnv emptyStore
      "https://local.test/users/zzz" 0 (by decide) (by decide) (by decide)).1).trans
      rfl
  · exact ((local_uri_resolution_no_network trivEnv emptyStore
      "https://local.test/users/zzz" 0 (by decide) (by decide) (by decide)).2).trans
      rfl

lemma find?_map_of_pred_none {α : Type} (l : List α) (p : α → Bool) (f : α → α)
    (hf : ∀ x, p (f x) = p x) (h : l.find? p = none) :
    (l.map f).find? p = none := by
  rw [List.find?_eq_none] at h ⊢
  intro x hx
  rcases List.mem_map.mp hx with ⟨y, hy, rfl⟩
  rw [hf]
  exact h y hy

lemma userResolve_hit (env : Env) (S : Store) (uri : String) (u : UserRow)
    (h : S.users.find? (fun x => x.uri == some uri) = some u) :
    userResolve env S uri = Except.ok (some u, S) := by
  unfold userResolve
  rw [h]

lemma relUpdate_pred (target : UserRow) (relId o t : String) (r : RelationshipRow) :
    ((relUpdate target relId r).ownerId == o && (relUpdate target relId r).subjectId == t)
      = (r.ownerId == o && r.subjectId == t) := by
  unfold relUpdate
  by_cases h : r.id == relId <;> simp [h]

lemma getRel_miss (S : Store) (acc target : UserRow)
    (hnorel : S.relationships.find?
      (fun x => x.ownerId == acc.id && x.subjectId == target.id) = none) :
    getRelationshipToOtherUser S acc target
      = (freshRel S acc target,
         { S with
           relationships := S.relationships ++ [freshRel S acc target],
           nextId := S.nextId + 1 }) := by
  unfold getRelationshipToOtherUser
  rw [hnorel]
  rfl

lemma getRel_hit (S : Store) (acc target : UserRow) (r : RelationshipRow)
    (hr : S.relationships.find?
      (fun x => x.ownerId == acc.id && x.subjectId == target.id) = some r) :
    getRelationshipToOtherUser S acc target = (r, S) := by
  unfold getRelationshipToOtherUser
  rw [hr]

lemma handleFollow_fresh (env : Env) (S : Store) (target acc : UserRow)
    (authorUri : String)
    (hfind : S.users.find? (fun x => x.uri == some authorUri) = some acc)
    (hnorel : S.relationships.find?
      (fun x => x.ownerId == acc.id && x.subjectId == target.id) = none) :
    handleFollow env S target authorUri
      = (FollowOutcome.followOk (!target.isLocked), followStore S target acc) := by
  unfold handleFollow
  rw [userResolve_hit env S authorUri acc hfind]
  dsimp only
  rw [getRel_miss S acc target hnorel]
  simp [followStore, freshRel, relUpdate]

lemma followStore_following (S : Store) (target acc : UserRow)
    (hnorel : S.relationships.find?
      (fun x => x.ownerId == acc.id && x.subjectId == target.id) = none) :
    (followStore S target acc).relationships.find?
        (fun x => x.ownerId == acc.id && x.subjectId == target.id)
      = some (relUpdate target (toString S.nextId) (freshRel S acc target)) := by
  unfold followStore
  simp only [List.map_append, List.find?_append]
  rw [find?_map_of_pred_none _ _ _
    (fun r => relUpdate_pred target (toString S.nextId) acc.id target.id r) hnorel]
  simp [freshRel, relUpdate]

lemma handleFollow_already (env : Env) (S : Store) (target acc : UserRow)
    (authorUri : String) (r : RelationshipRow)
    (hfind : S.users.find? (fun x => x.uri == some authorUri) = some acc)
    (hr : S.relationships.find?
      (fun x => x.ownerId == acc.id && x.subjectId == target.id) = some r)
    (hfol : r.following = true) :
    handleFollow env S target authorUri = (FollowOutcome.alreadyFollowing, S) := by
  unfold handleFollow
  rw [userResolve_hit env S authorUri acc hfind]
  dsimp only
  rw [getRel_hit S acc target r hr]
  simp [hfol]

/-- C5: a first Follow from a remote actor (resolving to the stored row
`acc`) to an unlocked local target with no pre-existing relationship
succeeds with the outbound accept triggered, sets `following = true`
and appends exactly one notification row; delivering the same Follow
again is the success no-op `alreadyFollowing` returning the store
unchanged — no relationship change, no second notification, no second
accept. -/
theorem follow_twice_single_notification (env : Env) (s : Store)
    (target acc : UserRow) (authorUri : String)
    (hfind : s.users.find? (fun u => u.uri == some authorUri) = some acc)
    (hunlocked : target.isLocked = false)
    (hnorel : s.relationships.find?
      (fun r => r.ownerId == acc.id && r.subjectId == target.id) = none) :
    (handleFollow env s target authorUri).1 = FollowOutcome.followOk true ∧
    relFollowing (handleFollow env s target authorUri).2 acc.id target.id = some true ∧
    (handleFollow env s target authorUri).2.notifications
      = s.notifications ++
        [{ accountId := acc.id, notifiedId := target.id, ntype := "follow" }] ∧
    handleFollow env (handleFollow env s target authorUri).2 target authorUri
      = (FollowOutcome.alreadyFollowing, (handleFollow env s target authorUri).2) := by
  rw [handleFollow_fresh env s target acc authorUri hfind hnorel]
  refine ⟨by simp [hunlocked], ?_, ?_, ?_⟩
  · unfold relFollowing
    rw [followStore_following s target acc hnorel]
    simp [relUpdate, freshRel, hunlocked]
  · simp [followStore, hunlocked]
  · exact handleFollow_already env (followStore s target acc) target acc authorUri
      (relUpdate target (toString s.nextId) (freshRel s acc target))
      hfind
      (followStore_following s target acc hnorel)
      (by simp [relUpdate, freshRel, hunlocked])

/-- Witness for C5 on a concrete store: `otherActor` follows
`localActor` twice. -/
theorem follow_twice_single_notification_witness :
    undoStore.users.find?
      (fun u => u.uri == some "https://remote.example/users/u2") = some otherActor ∧
    (handleFollow trivEnv undoStore localActor "https://remote.example/users/u2").1
      = FollowOutcome.followOk true ∧
    handleFollow trivEnv
        (handleFollow trivEnv undoStore localActor "https://remote.example/users/u2").2
        localActor "https://remote.example/users/u2"
      = (FollowOutcome.alreadyFollowing,
         (handleFollow trivEnv undoStore localActor "https://remote.example/users/u2").2) :=
  ⟨by decide,
   (follow_twice_single_notification trivEnv undoStore localActor otherActor
     "https://remote.example/users/u2" (by decide) (by decide) (by decide)).1,
   (follow_twice_single_notification trivEnv undoStore localActor otherActor
     "https://remote.example/users/u2" (by decide) (by decide) (by decide)).2.2.2⟩

lemma userSaveFromRemote_notes (env : Env) (S : Store) (uri : String)
    (u : UserRow) (S' : Store)
    (h : userSaveFromRemote env S uri = Except.ok (u, S')) : S'.notes = S.notes := by
  unfold userSaveFromRemote at h
  by_cases hc : env.canParse uri
  · simp only [hc, Bool.not_true, Bool.false_eq_true, if_false] at h
    cases hf : env.fetchUser uri with
    | none => rw [hf] at h; simp at h
    | some data =>
      rw [hf] at h
      dsimp only at h
      cases hfind : S.users.find? (fun x => x.uri == some data.uri) with
      | some found =>
        rw [hfind] at h
        simp only [Except.ok.injEq, Prod.mk.injEq] at h
        rw [← h.2]
      | none =>
        rw [hfind] at h
        simp only [Except.ok.injEq, Prod.mk.injEq] at h
        rw [← h.2]
  · simp only [hc, Bool.not_false, if_true] at h
    simp at h

lemma userResolve_notes (env : Env) (S : Store) (uri : String)
    (r : Option UserRow) (S' : Store)
    (h : userResolve env S uri = Except.ok (r, S')) : S'.notes = S.notes := by
  unfold userResolve at h
  cases hfind : S.users.find? (fun x => x.uri == some uri) with
  | some found =>
    rw [hfind] at h
    simp only [Except.ok.injEq, Prod.mk.injEq] at h
    rw [← h.2]
  | none =>
    rw [hfind] at h
    by_cases hl : jsStartsWith uri env.baseUrl
    · simp only [hl, if_true] at h
      cases hm : env.matchId uri with
      | none => rw [hm] at h; simp at h
      | some lid =>
        rw [hm] at h
        simp only [Except.ok.injEq, Prod.mk.injEq] at h
        rw [← h.2]
    · simp only [hl, Bool.false_eq_true, if_false] at h
      cases hs : userSaveFromRemote env S uri with
      | error e => rw [hs] at h; simp at h
      | ok val =>
        rw [hs] at h
        obtain ⟨uu, ss⟩ := val
        simp only [Except.ok.injEq, Prod.mk.injEq] at h
        rw [← h.2]
        exact userSaveFromRemote_notes env S uri uu ss hs

lemma resolveMentions_notes (env : Env) (ms : List String) : ∀ (S : Store)
    (r : List (Option UserRow)) (S' : Store),
    resolveMentions env S ms = Except.ok (r, S') → S'.notes = S.notes := by
  induction ms with
  | nil =>
    intro S r S' h
    simp only [resolveMentions, Except.ok.injEq, Prod.mk.injEq] at h
    rw [← h.2]
  | cons m rest ih =>
    intro S r S' h
    unfold resolveMentions at h
    cases hu : userResolve env S m with
    | error e => rw [hu] at h; simp at h
    | ok val =>
      rw [hu] at h
      obtain ⟨u, S1⟩ := val
      dsimp only at h
      cases hr : resolveMentions env S1 rest with
      | error e => rw [hr] at h; simp at h
      | ok val2 =>
        rw [hr] at h
        obtain ⟨us, S2⟩ := val2
        simp only [Except.ok.injEq, Prod.mk.injEq] at h
        rw [← h.2]
        rw [ih S1 us S2 hr]
        exact userResolve_notes env S m u S1 hu

lemma find?_none_of_count_zero (notes : List NoteRow) (uri : String)
    (h : countNotesWithUri notes uri = 0) :
    notes.find? (fun n => n.uri == some uri) = none := by
  unfold countNotesWithUri at h
  rw [List.length_eq_zero] at h
  rw [List.find?_eq_none]
  intro x hx hpx
  have hmem : x ∈ notes.filter (fun n => n.uri == some uri) :=
    List.mem_filter.mpr ⟨hx, hpx⟩
  rw [h] at hmem
  exact absurd hmem (List.not_mem_nil x)

lemma noteSave_provided_spec (env : Env) (g : Nat) (s : Store) (p : NotePayload)
    (res : NoteRow × Store)
    (hreply : p.repliesTo = none) (hquote : p.quotes = none)
    (h : noteSaveFromRemoteFuel env (g + 1) s none (some p) = Except.ok res) :
    ∃ author mrows sB, sB.notes = s.notes ∧
      res = (match s.notes.find? (fun n => n.uri == some p.uri) with
             | some old => noteUpdateFromData sB old p mrows none none
             | none => noteFromData sB author p mrows none none) := by
  unfold noteSaveFromRemoteFuel at h
  dsimp only at h
  simp only [Option.isNone_none, Option.isNone_some, Bool.true_and,
    Bool.false_eq_true, if_false] at h
  cases htyp : p.typ != "Note" with
  | true => rw [htyp] at h; simp at h
  | false =>
    rw [htyp] at h
    simp only [Bool.false_eq_true, if_false] at h
    cases hauth : p.author.isEmpty with
    | true => rw [hauth] at h; simp at h
    | false =>
      rw [hauth] at h
      simp only [Bool.false_eq_true, if_false] at h
      cases hu : userResolve env s p.author with
      | error e => rw [hu] at h; simp at h
      | ok val =>
        rw [hu] at h
        obtain ⟨a, sA⟩ := val
        cases a with
        | none => simp at h
        | some author =>
          dsimp only at h
          cases hm : resolveMentions env sA p.mentions with
          | error e => rw [hm] at h; simp at h
          | ok val2 =>
            rw [hm] at h
            obtain ⟨ms, sB⟩ := val2
            dsimp only at h
            cases hfm : forceMentions ms with
            | error e => rw [hfm] at h; simp at h
            | ok mrows =>
              rw [hfm] at h
              dsimp only at h
              rw [hreply, hquote] at h
              dsimp only at h
              refine ⟨author, mrows, sB, ?_, ?_⟩
              · rw [resolveMentions_notes env p.mentions sA ms sB hm]
                exact userResolve_notes env s p.author (some author) sA hu
              · cases hfound : s.notes.find? (fun n => n.uri == some p.uri) with
                | some old =>
                  rw [hfound] at h
                  dsimp only at h
                  simp only [Except.ok.injEq] at h
                  exact h.symm
                | none =>
                  rw [hfound] at h
                  dsimp only at h
                  simp only [Except.ok.injEq] at h
                  exact h.symm

lemma count_append (a b : List NoteRow) (uri : String) :
    countNotesWithUri (a ++ b) uri = countNotesWithUri a uri + countNotesWithUri b uri := by
  unfold countNotesWithUri
  rw [List.filter_append, List.length_append]

lemma noteResolve_provided_ok (env : Env) (fuel : Nat) (s : Store) (p : NotePayload)
    (n : NoteRow) (s' : Store)
    (h : noteResolveFuel env fuel s none (some p) = Except.ok (some n, s')) :
    ∃ g, noteSaveFromRemoteFuel env g s none (some p) = Except.ok (n, s') := by
  cases fuel with
  | zero => simp [noteResolveFuel] at h
  | succ f =>
    unfold noteResolveFuel at h
    dsimp only at h
    cases hs : noteSaveFromRemoteFuel env f s none (some p) with
    | error e => rw [hs] at h; simp at h
    | ok val =>
      rw [hs] at h
      obtain ⟨nn, ss⟩ := val
      dsimp only at h
      simp only [Except.ok.injEq, Prod.mk.injEq, Option.some.injEq] at h
      exact ⟨f, by rw [hs, h.1, h.2]⟩

/-- C4: resolving the same remote note payload twice (no reply/quote
targets, a non-empty uri not yet stored, and no stored note sharing the
fresh row's id) leaves exactly one `Notes` row with that uri after each
call: the first call inserts the row, and the second call updates that
same row in place — same row id, same total row count, no duplicate. -/
theorem note_resolve_twice_single_row (env : Env) (s : Store) (p : NotePayload)
    (fuel1 fuel2 : Nat) (n1 n2 : NoteRow) (s1 s2 : Store)
    (hne : p.uri.isEmpty = false)
    (hreply : p.repliesTo = none) (hquote : p.quotes = none)
    (h0 : countNotesWithUri s.notes p.uri = 0)
    (hid : ∀ n ∈ s.notes, n.id ≠ n1.id)
    (h1 : noteResolveFuel env fuel1 s none (some p) = Except.ok (some n1, s1))
    (h2 : noteResolveFuel env fuel2 s1 none (some p) = Except.ok (some n2, s2)) :
    countNotesWithUri s1.notes p.uri = 1 ∧
    countNotesWithUri s2.notes p.uri = 1 ∧
    n2.id = n1.id ∧
    s2.notes.length = s1.notes.length := by
  obtain ⟨g1, hs1⟩ := noteResolve_provided_ok env fuel1 s p n1 s1 h1
  cases g1 with
  | zero => simp [noteSaveFromRemoteFuel] at hs1
  | succ g1' =>
  obtain ⟨author1, mrows1, sB1, hB1notes, hres1⟩ :=
    noteSave_provided_spec env g1' s p (n1, s1) hreply hquote hs1
  rw [find?_none_of_count_zero s.notes p.uri h0] at hres1
  unfold noteFromData at hres1
  dsimp only at hres1
  rw [Prod.mk.injEq] at hres1
  obtain ⟨hn1, hs1eq⟩ := hres1
  have hn1uri : n1.uri = some p.uri := by
    rw [hn1]
    simp [hne]
  have hS1notes : s1.notes = s.notes ++ [n1] := by
    rw [hs1eq, ← hn1, hB1notes]
  have hcount1 : countNotesWithUri s1.notes p.uri = 1 := by
    rw [hS1notes, count_append, h0]
    unfold countNotesWithUri
    simp [List.filter, hn1uri]
  obtain ⟨g2, hs2⟩ := noteResolve_provided_ok env fuel2 s1 p n2 s2 h2
  cases g2 with
  | zero => simp [noteSaveFromRemoteFuel] at hs2
  | succ g2' =>
  obtain ⟨author2, mrows2, sB2, hB2notes, hres2⟩ :=
    noteSave_provided_spec env g2' s1 p (n2, s2) hreply hquote hs2
  have hfound2 : s1.notes.find? (fun n => n.uri == some p.uri) = some n1 := by
    rw [hS1notes, List.find?_append, find?_none_of_count_zero s.notes p.uri h0]
    simp [List.find?, hn1uri]
  rw [hfound2] at hres2
  unfold noteUpdateFromData at hres2
  dsimp only at hres2
  rw [Prod.mk.injEq] at hres2
  obtain ⟨hn2, hs2eq⟩ := hres2
  have hmapid : sB2.notes.map (fun n => if n.id == n1.id then n2 else n)
      = s.notes ++ [n2] := by
    rw [hB2notes, hS1notes, List.map_append]
    have hl : s.notes.map (fun n => if n.id == n1.id then n2 else n) = s.notes := by
      have hever : ∀ n ∈ s.notes,
          (fun n : NoteRow => if n.id == n1.id then n2 else n) n = id n := by
        intro n hn
        simp [beq_eq_false_iff_ne.mpr (hid n hn)]
      rw [List.map_congr_left hever, List.map_id]
    rw [hl]
    simp
  have hS2notes : s2.notes = s.notes ++ [n2] := by
    rw [hs2eq]
    dsimp only
    rw [← hn2]
    exact hmapid
  have hn2uri : n2.uri = some p.uri := by
    rw [hn2]
    exact hn1uri
  have hn2id : n2.id = n1.id := by
    rw [hn2]
  have hcount2 : countNotesWithUri s2.notes p.uri = 1 := by
    rw [hS2notes, count_append, h0]
    unfold countNotesWithUri
    simp [List.filter, hn2uri]
  have hlen : s2.notes.length = s1.notes.length := by
    rw [hS2notes, hS1notes]
    simp
  exact ⟨hcount1, hcount2, hn2id, hlen⟩

/-- Witness for C4: the identical payload `remotePayload` resolved
twice against `undoStore` — the first call inserts `insertedNote`, the
second updates it in place. -/
theorem note_resolve_twice_single_row_witness :
    countNotesWithUri undoStore.notes remotePayload.uri = 0 ∧
    (countNotesWithUri storeAfterInsert.notes remotePayload.uri = 1 ∧
     countNotesWithUri storeAfterInsert.notes remotePayload.uri = 1 ∧
     insertedNote.id = insertedNote.id ∧
     storeAfterInsert.notes.length = storeAfterInsert.notes.length) :=
  ⟨by decide,
   note_resolve_twice_single_row trivEnv undoStore remotePayload 2 2
     insertedNote insertedNote storeAfterInsert storeAfterInsert
     (by decide) rfl rfl (by decide) (by decide) rfl rfl⟩

end Lysand
